import Mathlib

/-!
Verification of beacon-kit, file `primitives/crypto/bls.go`.

A shallow embedding of the BLS identity layer: the fixed-size key and signature
types, the address derivation `GetAddressFromPubKey`, and the `BLSSigner`
capability, followed by the properties established about them.

Conventions of the embedding:

* a Go byte is a `Fin 256`, a Go `[]byte` is an `Option (List Byte)` where the
  `nil` slice is `none`, and a slice passed as an argument is its element list;
* a Go `error` value is a `GoError` (its `Error()` text and its `Unwrap()`
  chain), and a Go `(T, error)` pair returned by a library that follows the
  usual convention is an `Except GoError T`;
* calls that leave the package (the CometBFT decoder and the `Address` method of
  the key it returns) are made through instrumented wrappers that append to a
  call trace, so that the number and order of external calls can be stated.
-/

namespace Crypto

/-! Section: Bytes and errors -/

/-- One Go `byte`. -/
abbrev Byte := Fin 256

/-- A Go `error` value, as far as callers can observe it: the text returned by
`Error()` and the error returned by `Unwrap()`, when there is one.
`plain` is an error without an `Unwrap` method, `wrapError` is the
`*fmt.wrapError` that `fmt.Errorf` builds for a format containing `%w`. -/
inductive GoError where
  | plain (msg : String)
  | wrapError (msg : String) (err : GoError)
  deriving DecidableEq, Repr

/-- Method `Error()`. -/
def GoError.Error : GoError → String
  | .plain msg => msg
  | .wrapError msg _ => msg

/-- Method `Unwrap()` as seen by `errors.Unwrap`: `none` for an error that wraps
nothing. -/
def GoError.Unwrap : GoError → Option GoError
  | .plain _ => none
  | .wrapError _ err => some err

/-- Expansion of a format string over a single error operand: `%w` and `%v`
print the operand's `Error()` text, `%%` prints a percent sign, every other
character is copied. The second component tells whether a `%w` verb was met. -/
def expandFormat : List Char → GoError → List Char × Bool
  | [], _ => ([], false)
  | '%' :: 'w' :: rest, err =>
      let r := expandFormat rest err
      (err.Error.data ++ r.1, true)
  | '%' :: 'v' :: rest, err =>
      let r := expandFormat rest err
      (err.Error.data ++ r.1, r.2)
  | '%' :: '%' :: rest, err =>
      let r := expandFormat rest err
      ('%' :: r.1, r.2)
  | c :: rest, err =>
      let r := expandFormat rest err
      (c :: r.1, r.2)

/-- Go's `fmt.Errorf(format, err)` with one error operand: the message is the
expanded format; with a `%w` verb the result wraps the operand, otherwise it is
a plain error carrying the text only. -/
def Errorf (format : String) (err : GoError) : GoError :=
  let r := expandFormat format.data err
  if r.2 then .wrapError (String.mk r.1) err else .plain (String.mk r.1)

/-! Section: Fixed-size byte containers -/

/-- Failure of a fixed-size container to accept a byte sequence. -/
inductive BytesError where
  | SizeMismatch (want got : Nat)
  deriving DecidableEq, Repr

/-- Modelled from the spec: package `primitives/bytes` (the declarations of
`B48` and `B96` and their constructors and codecs) is not part of the source at
hand. Following the data model, a container of width `n` is an immutable value
of exactly `n` bytes with byte-wise equality. -/
structure FixedBytes (n : Nat) where
  data : List Byte
  size_eq : data.length = n
  deriving DecidableEq

/-- Modelled from the spec: type `B48` of the missing package
`primitives/bytes`, a container of exactly 48 bytes. -/
abbrev B48 := FixedBytes 48

/-- Modelled from the spec: type `B96` of the missing package
`primitives/bytes`, a container of exactly 96 bytes. -/
abbrev B96 := FixedBytes 96

/-- Modelled from the spec: the constructor of the missing package
`primitives/bytes`. A container is constructible from any byte source and
construction fails with `SizeMismatch` when given fewer or more than `n`
bytes. -/
def FixedBytes.fromBytes (n : Nat) (input : List Byte) : Except BytesError (FixedBytes n) :=
  if h : input.length = n then .ok ⟨input, h⟩ else .error (.SizeMismatch n input.length)

/-- Modelled from the spec: the encoder of the missing package
`primitives/bytes`: the canonical fixed-width encoding, the `n` bytes
themselves with no length prefix. -/
def FixedBytes.encode {n : Nat} (x : FixedBytes n) : List Byte := x.data

/-- Modelled from the spec: the decoder of the missing package
`primitives/bytes`: decoding reads the fixed-width encoding back and fails
with `SizeMismatch` when given fewer or more than `n` bytes. -/
def FixedBytes.decode (n : Nat) (encoded : List Byte) : Except BytesError (FixedBytes n) :=
  FixedBytes.fromBytes n encoded

/-- The slice expression `x[:]` over a fixed-size array: all of its bytes, in
order. -/
def FixedBytes.slice {n : Nat} (x : FixedBytes n) : List Byte := x.data

/-! Section: `bls.go` -/

/-- `CometBLSType` is the BLS curve type used in the Comet BFT consensus
algorithm. -/
def CometBLSType : String := "bls12_381"

/-- `BLSPubkey` as per the Ethereum 2.0 specification. -/
abbrev BLSPubkey := B48

/-- `BLSSignature` as per the Ethereum 2.0 specification. -/
abbrev BLSSignature := B96

/-- The part of CometBFT that `GetAddressFromPubKey` calls, taken as a
parameter: `cometencoding.PubKeyFromTypeAndBytes` over some type `Key` of key
objects, and the method `Address` of such an object. Both are functions of
their arguments. -/
structure Comet (Key : Type) where
  PubKeyFromTypeAndBytes : String → List Byte → Except GoError Key
  Address : Key → Option (List Byte)

/-- One call that leaves the package. -/
inductive Call (Key : Type) where
  | PubKeyFromTypeAndBytes (pkType : String) (bytes : List Byte)
  | Address (pk : Key)
  deriving DecidableEq

/-- The calls made so far, oldest first. -/
abbrev Trace (Key : Type) := List (Call Key)

/-- A call of `cometencoding.PubKeyFromTypeAndBytes`, recorded in the trace. -/
def callPubKeyFromTypeAndBytes {Key : Type} (c : Comet Key) (pkType : String)
    (bytes : List Byte) (t : Trace Key) : Except GoError Key × Trace Key :=
  (c.PubKeyFromTypeAndBytes pkType bytes, t ++ [Call.PubKeyFromTypeAndBytes pkType bytes])

/-- A call of `pk.Address()`, recorded in the trace. -/
def callAddress {Key : Type} (c : Comet Key) (pk : Key) (t : Trace Key) :
    Option (List Byte) × Trace Key :=
  (c.Address pk, t ++ [Call.Address pk])

/-- The two results of `GetAddressFromPubKey`: the address slice (`none` is
`nil`) and the error (`none` is `nil`). -/
structure AddressResult where
  addr : Option (List Byte)
  err : Option GoError
  deriving DecidableEq

/-- `GetAddressFromPubKey`: decode the key with the fixed curve type and return
the address of the decoded key; a decoding failure is wrapped and returned with
a `nil` address. -/
def GetAddressFromPubKey {Key : Type} (c : Comet Key) (pubKey : BLSPubkey) (t : Trace Key) :
    AddressResult × Trace Key :=
  match callPubKeyFromTypeAndBytes c CometBLSType pubKey.slice t with
  | (.error err, t1) => (⟨none, some (Errorf "failed retrieving pubKey from bytes: %w" err)⟩, t1)
  | (.ok pk, t1) =>
      let r := callAddress c pk t1
      (⟨r.1, none⟩, r.2)

/-- Number of decoder calls in a trace. -/
def decoderCalls {Key : Type} : Trace Key → Nat
  | [] => 0
  | Call.PubKeyFromTypeAndBytes _ _ :: rest => decoderCalls rest + 1
  | Call.Address _ :: rest => decoderCalls rest

/-- Number of `Address()` calls in a trace. -/
def addressCalls {Key : Type} : Trace Key → Nat
  | [] => 0
  | Call.PubKeyFromTypeAndBytes _ _ :: rest => addressCalls rest
  | Call.Address _ :: rest => addressCalls rest + 1

/-- `BLSSigner` defines an interface for cryptographic signing operations:
`PublicKey` returns the public key of the signer, `Sign` takes a message and
returns a signature and an error, `VerifySignature` verifies a signature
against a message and a public key (`none` is the `nil` error). -/
structure BLSSigner where
  PublicKey : BLSPubkey
  Sign : List Byte → Except GoError BLSSignature
  VerifySignature : BLSPubkey → List Byte → BLSSignature → Option GoError

/-! Section: The signer backend described by the specification -/

/-- The error the specification calls `InvalidSignatureError`. -/
def InvalidSignatureError : GoError := .plain "InvalidSignatureError"

/-- The error the specification calls `MalformedInputError`. -/
def MalformedInputError : GoError := .plain "MalformedInputError"

/-- Modelled from the spec: the signing backend (private key material and the
curve library behind every implementation of `BLSSigner`) is not part of the
source at hand. Following the signer contract, a deterministic scheme gives the
private key corresponding to a public key (`none` when the bytes are not a valid
curve element), tells whether signature bytes are a valid curve element, and
signs a message with a private key; what it signs is well-formed. -/
structure SignatureScheme where
  PrivateKey : Type
  privateKeyOf : BLSPubkey → Option PrivateKey
  signatureWellFormed : BLSSignature → Bool
  sign : PrivateKey → List Byte → Except GoError BLSSignature
  sign_wellFormed : ∀ sk msg sig, sign sk msg = .ok sig → signatureWellFormed sig = true

/-- Modelled from the spec: `VerifySignature` of the missing signer backend.
It fails with `MalformedInputError` when the public key or the signature is not
well-formed, succeeds if and only if the signature was produced by the private
key corresponding to `pubKey` over exactly the bytes of `msg`, and fails with
`InvalidSignatureError` on mismatch. -/
def SignatureScheme.verify (sch : SignatureScheme) (pubKey : BLSPubkey) (msg : List Byte)
    (signature : BLSSignature) : Option GoError :=
  match sch.privateKeyOf pubKey with
  | none => some MalformedInputError
  | some sk =>
      if sch.signatureWellFormed signature then
        match sch.sign sk msg with
        | .ok produced => if produced = signature then none else some InvalidSignatureError
        | .error _ => some InvalidSignatureError
      else some MalformedInputError

/-- Modelled from the spec: a signer of the missing backend, a private key
together with the signer's own public key, the one that key corresponds to. -/
structure SchemeSigner (sch : SignatureScheme) where
  key : sch.PrivateKey
  pubKey : BLSPubkey
  own_key : sch.privateKeyOf pubKey = some key

/-- Modelled from the spec: the three operations of a signer of the missing
backend, as a `BLSSigner`. -/
def SchemeSigner.toBLSSigner {sch : SignatureScheme} (s : SchemeSigner sch) : BLSSigner where
  PublicKey := s.pubKey
  Sign := sch.sign s.key
  VerifySignature := sch.verify

/-! Section: Concrete instances used to evaluate the definitions -/

/-- A container holding `n` copies of one byte. -/
def FixedBytes.fill (n : Nat) (b : Byte) : FixedBytes n :=
  ⟨List.replicate n b, List.length_replicate n b⟩

/-- A sample decoder: it knows the curve type `bls12_381` only, accepts 48-byte
keys whose first byte is not zero, and takes the first 20 bytes of a key as its
address. -/
def sampleComet : Comet (List Byte) where
  PubKeyFromTypeAndBytes := fun pkType bytes =>
    if pkType = "bls12_381" then
      if bytes.length = 48 ∧ bytes.head? ≠ some 0 then .ok bytes
      else .error (.plain "invalid public key")
    else .error (.plain "unsupported key type")
  Address := fun pk => some (pk.take 20)

/-- Checksum of a message: the sum of its bytes modulo 256. -/
def checksum (msg : List Byte) : Byte := msg.foldl (fun acc b => acc + b) 0

/-- A sample signature: the key byte, the checksum of the message, 94 zero
bytes. -/
def sampleSignature (sk : Byte) (msg : List Byte) : BLSSignature :=
  ⟨sk :: checksum msg :: List.replicate 94 0, by simp⟩

/-- A sample scheme: the private key of a public key is its non-zero first
byte, provided all other bytes are zero. -/
def sampleScheme : SignatureScheme where
  PrivateKey := Byte
  privateKeyOf := fun pk =>
    match pk.data with
    | b :: rest => if b ≠ 0 ∧ rest = List.replicate 47 0 then some b else none
    | [] => none
  signatureWellFormed := fun sig => decide (sig.data.drop 2 = List.replicate 94 0)
  sign := fun sk msg => .ok (sampleSignature sk msg)
  sign_wellFormed := by
    intro sk msg sig h
    cases h
    simp [sampleSignature]

/-- The public key of the sample scheme with private key byte `b`. -/
def samplePubkey (b : Byte) : BLSPubkey :=
  ⟨b :: List.replicate 47 0, by simp⟩

/-- A signer of the sample scheme, with private key byte 7. -/
def sampleSigner : SchemeSigner sampleScheme where
  key := (7 : Byte)
  pubKey := samplePubkey 7
  own_key := rfl

/-- A public key the sample decoder accepts: 48 bytes of value 1. -/
def acceptedKey : BLSPubkey := FixedBytes.fill 48 1

/-- A public key the sample decoder rejects: 48 zero bytes. -/
def rejectedKey : BLSPubkey := FixedBytes.fill 48 0

/-! Section: Properties of the embedding -/

/-- The error built for a decoding failure: it wraps the decoder's error and
its text is the context followed by the decoder's text. -/
theorem Errorf_retrieving (err : GoError) :
    Errorf "failed retrieving pubKey from bytes: %w" err
      = .wrapError ("failed retrieving pubKey from bytes: " ++ err.Error) err := by
  simp only [Errorf, expandFormat, List.append_nil, if_true]
  rfl

/-- What `GetAddressFromPubKey` returns and records when the decoder fails. -/
theorem GetAddressFromPubKey_of_error {Key : Type} (c : Comet Key) (pubKey : BLSPubkey)
    (t : Trace Key) (e : GoError)
    (h : c.PubKeyFromTypeAndBytes CometBLSType pubKey.slice = .error e) :
    GetAddressFromPubKey c pubKey t
      = (⟨none, some (.wrapError ("failed retrieving pubKey from bytes: " ++ e.Error) e)⟩,
         t ++ [Call.PubKeyFromTypeAndBytes CometBLSType pubKey.slice]) := by
  simp only [GetAddressFromPubKey, callPubKeyFromTypeAndBytes, h, Errorf_retrieving]

/-- What `GetAddressFromPubKey` returns and records when the decoder
succeeds. -/
theorem GetAddressFromPubKey_of_ok {Key : Type} (c : Comet Key) (pubKey : BLSPubkey)
    (t : Trace Key) (k : Key)
    (h : c.PubKeyFromTypeAndBytes CometBLSType pubKey.slice = .ok k) :
    GetAddressFromPubKey c pubKey t
      = (⟨c.Address k, none⟩,
         t ++ [Call.PubKeyFromTypeAndBytes CometBLSType pubKey.slice, Call.Address k]) := by
  simp only [GetAddressFromPubKey, callPubKeyFromTypeAndBytes, callAddress, h,
    List.append_assoc, List.singleton_append]

/-- Claim C1: for every 48-byte public key, `GetAddressFromPubKey` returns a
non-nil error exactly when the decoder, called with the curve tag `bls12_381`
and the bytes of the key, returns an error, and a nil error exactly when the
decoder returns a key. -/
theorem GetAddressFromPubKey_error_iff {Key : Type} (c : Comet Key) (pubKey : BLSPubkey)
    (t : Trace Key) :
    ((GetAddressFromPubKey c pubKey t).1.err ≠ none
        ↔ ∃ e, c.PubKeyFromTypeAndBytes "bls12_381" pubKey.slice = .error e) ∧
    ((GetAddressFromPubKey c pubKey t).1.err = none
        ↔ ∃ k, c.PubKeyFromTypeAndBytes "bls12_381" pubKey.slice = .ok k) := by
  cases h : c.PubKeyFromTypeAndBytes CometBLSType pubKey.slice with
  | error e =>
      have h2 : c.PubKeyFromTypeAndBytes "bls12_381" pubKey.slice = .error e := h
      rw [GetAddressFromPubKey_of_error c pubKey t e h, h2]
      simp
  | ok k =>
      have h2 : c.PubKeyFromTypeAndBytes "bls12_381" pubKey.slice = .ok k := h
      rw [GetAddressFromPubKey_of_ok c pubKey t k h, h2]
      simp

/-- Claim C2: when the decoder succeeds with key object `k`, the result is
exactly `k.Address()` with a nil error; the decoder was called once, with the
constant tag `bls12_381` and with exactly the 48 bytes of the key, in order. -/
theorem GetAddressFromPubKey_returns_address {Key : Type} (c : Comet Key)
    (pubKey : BLSPubkey) (t : Trace Key) (k : Key)
    (h : c.PubKeyFromTypeAndBytes "bls12_381" pubKey.slice = .ok k) :
    (GetAddressFromPubKey c pubKey t).1 = ⟨c.Address k, none⟩ ∧
    (GetAddressFromPubKey c pubKey t).2
      = t ++ [Call.PubKeyFromTypeAndBytes "bls12_381" pubKey.encode, Call.Address k] ∧
    CometBLSType = "bls12_381" ∧
    pubKey.slice = pubKey.encode ∧ pubKey.slice.length = 48 := by
  have h2 : c.PubKeyFromTypeAndBytes CometBLSType pubKey.slice = .ok k := h
  rw [GetAddressFromPubKey_of_ok c pubKey t k h2]
  exact ⟨rfl, rfl, rfl, rfl, pubKey.size_eq⟩

/-- Witness for claim C2: the sample decoder accepts the key of 48 one-bytes
and the address is the first 20 of them. -/
theorem GetAddressFromPubKey_returns_address_witness :
    sampleComet.PubKeyFromTypeAndBytes "bls12_381" acceptedKey.slice
        = .ok (List.replicate 48 1) ∧
    (GetAddressFromPubKey sampleComet acceptedKey []).1
        = ⟨some (List.replicate 20 1), none⟩ :=
  ⟨rfl, (GetAddressFromPubKey_returns_address sampleComet acceptedKey []
    (List.replicate 48 1) rfl).1⟩

/-- Claim C3: when the decoder rejects the bytes of the key, the call fails
with an error that wraps the decoder's failure and the address result is nil. -/
theorem GetAddressFromPubKey_no_address_on_failure {Key : Type} (c : Comet Key)
    (pubKey : BLSPubkey) (t : Trace Key) (e : GoError)
    (h : c.PubKeyFromTypeAndBytes CometBLSType pubKey.slice = .error e) :
    (GetAddressFromPubKey c pubKey t).1.addr = none ∧
    ∃ w, (GetAddressFromPubKey c pubKey t).1.err = some w ∧ w.Unwrap = some e := by
  rw [GetAddressFromPubKey_of_error c pubKey t e h]
  exact ⟨rfl, _, rfl, rfl⟩

/-- Witness for claim C3: the sample decoder rejects the key of 48 zero bytes
and no address comes back. -/
theorem GetAddressFromPubKey_no_address_on_failure_witness :
    sampleComet.PubKeyFromTypeAndBytes CometBLSType rejectedKey.slice
        = .error (.plain "invalid public key") ∧
    (GetAddressFromPubKey sampleComet rejectedKey []).1.addr = none :=
  ⟨rfl, (GetAddressFromPubKey_no_address_on_failure sampleComet rejectedKey []
    (.plain "invalid public key") rfl).1⟩

/-- Claim C4: when the decoder fails with error `e`, unwrapping the returned
error yields `e` itself and its message is the context
`failed retrieving pubKey from bytes: ` followed by the message of `e`. -/
theorem GetAddressFromPubKey_wraps_decoder_error {Key : Type} (c : Comet Key)
    (pubKey : BLSPubkey) (t : Trace Key) (e : GoError)
    (h : c.PubKeyFromTypeAndBytes CometBLSType pubKey.slice = .error e) :
    ∃ w, (GetAddressFromPubKey c pubKey t).1.err = some w ∧
      w.Unwrap = some e ∧
      w.Error = "failed retrieving pubKey from bytes: " ++ e.Error := by
  rw [GetAddressFromPubKey_of_error c pubKey t e h]
  exact ⟨_, rfl, rfl, rfl⟩

/-- Witness for claim C4: the error returned for the key of 48 zero bytes. -/
theorem GetAddressFromPubKey_wraps_decoder_error_witness :
    sampleComet.PubKeyFromTypeAndBytes CometBLSType rejectedKey.slice
        = .error (.plain "invalid public key") ∧
    ∃ w, (GetAddressFromPubKey sampleComet rejectedKey []).1.err = some w ∧
      w.Unwrap = some (.plain "invalid public key") ∧
      w.Error = "failed retrieving pubKey from bytes: "
        ++ (GoError.plain "invalid public key").Error :=
  ⟨rfl, GetAddressFromPubKey_wraps_decoder_error sampleComet rejectedKey []
    (.plain "invalid public key") rfl⟩

/-- Claim C5: `GetAddressFromPubKey` is deterministic: with the decoder and
`Address` functions of their arguments, two calls with the same key give the
same outcome whatever was called before, in particular a second call made right
after the first, and two successful calls give the same address bytes. -/
theorem GetAddressFromPubKey_deterministic {Key : Type} (c : Comet Key) (pubKey : BLSPubkey)
    (t1 t2 : Trace Key) :
    (GetAddressFromPubKey c pubKey t1).1 = (GetAddressFromPubKey c pubKey t2).1 ∧
    (GetAddressFromPubKey c pubKey (GetAddressFromPubKey c pubKey t1).2).1
      = (GetAddressFromPubKey c pubKey t1).1 ∧
    ((GetAddressFromPubKey c pubKey t1).1.err = none →
      (GetAddressFromPubKey c pubKey t2).1.err = none ∧
      (GetAddressFromPubKey c pubKey t1).1.addr = (GetAddressFromPubKey c pubKey t2).1.addr) := by
  have key : ∀ a b : Trace Key,
      (GetAddressFromPubKey c pubKey a).1 = (GetAddressFromPubKey c pubKey b).1 := by
    intro a b
    cases h : c.PubKeyFromTypeAndBytes CometBLSType pubKey.slice with
    | error e =>
        rw [GetAddressFromPubKey_of_error c pubKey a e h,
          GetAddressFromPubKey_of_error c pubKey b e h]
    | ok k =>
        rw [GetAddressFromPubKey_of_ok c pubKey a k h,
          GetAddressFromPubKey_of_ok c pubKey b k h]
  refine ⟨key t1 t2, key _ t1, ?_⟩
  intro h
  rw [← key t1 t2]
  exact ⟨h, rfl⟩

/-- Claim C6: a byte sequence whose length is not 48 is refused as a
`BLSPubkey` with `SizeMismatch`, one whose length is not 96 is refused as a
`BLSSignature` with `SizeMismatch`, by construction and by decoding alike, so no
input of the wrong length becomes a valid instance. -/
theorem fromBytes_wrong_length (input : List Byte) :
    (input.length ≠ 48 →
      (FixedBytes.fromBytes 48 input : Except BytesError BLSPubkey)
          = .error (.SizeMismatch 48 input.length) ∧
      (FixedBytes.decode 48 input : Except BytesError BLSPubkey)
          = .error (.SizeMismatch 48 input.length) ∧
      ∀ v : BLSPubkey, FixedBytes.fromBytes 48 input ≠ .ok v) ∧
    (input.length ≠ 96 →
      (FixedBytes.fromBytes 96 input : Except BytesError BLSSignature)
          = .error (.SizeMismatch 96 input.length) ∧
      (FixedBytes.decode 96 input : Except BytesError BLSSignature)
          = .error (.SizeMismatch 96 input.length) ∧
      ∀ v : BLSSignature, FixedBytes.fromBytes 96 input ≠ .ok v) := by
  constructor <;> intro h <;>
    simp only [FixedBytes.decode, FixedBytes.fromBytes, h, dite_false, ne_eq,
      not_false_eq_true, implies_true, and_self, reduceCtorEq]

/-- Witness for claim C6: a sequence of 47 bytes is refused as a public key and
a sequence of 97 bytes as a signature. -/
theorem fromBytes_wrong_length_witness :
    ((List.replicate 47 (0 : Byte)).length ≠ 48 ∧
      (FixedBytes.fromBytes 48 (List.replicate 47 (0 : Byte)) : Except BytesError BLSPubkey)
        = .error (.SizeMismatch 48 47)) ∧
    ((List.replicate 97 (0 : Byte)).length ≠ 96 ∧
      (FixedBytes.fromBytes 96 (List.replicate 97 (0 : Byte)) : Except BytesError BLSSignature)
        = .error (.SizeMismatch 96 97)) :=
  ⟨⟨by decide, ((fromBytes_wrong_length (List.replicate 47 0)).1 (by decide)).1⟩,
   ⟨by decide, ((fromBytes_wrong_length (List.replicate 97 0)).2 (by decide)).1⟩⟩

/-- Claim C7: a byte sequence of length 48 is accepted as a `BLSPubkey`, its
encoding is the same 48 bytes and decoding the encoding gives the value back;
likewise for length 96 and `BLSSignature`; every value has an encoding of
exactly 48, respectively 96, bytes that decodes to it. -/
theorem fromBytes_encode_roundtrip :
    (∀ input : List Byte, input.length = 48 →
      ∃ v : BLSPubkey, FixedBytes.fromBytes 48 input = .ok v ∧ v.encode = input ∧
        FixedBytes.decode 48 v.encode = .ok v ∧ v.encode.length = 48) ∧
    (∀ input : List Byte, input.length = 96 →
      ∃ v : BLSSignature, FixedBytes.fromBytes 96 input = .ok v ∧ v.encode = input ∧
        FixedBytes.decode 96 v.encode = .ok v ∧ v.encode.length = 96) ∧
    (∀ x : BLSPubkey, FixedBytes.decode 48 x.encode = .ok x ∧ x.encode.length = 48) ∧
    (∀ x : BLSSignature, FixedBytes.decode 96 x.encode = .ok x ∧ x.encode.length = 96) := by
  have round : ∀ (n : Nat) (x : FixedBytes n),
      FixedBytes.decode n x.encode = .ok x ∧ x.encode.length = n := by
    intro n x
    simp only [FixedBytes.decode, FixedBytes.fromBytes, FixedBytes.encode, x.size_eq,
      dite_true, and_self]
  have build : ∀ (n : Nat) (input : List Byte), input.length = n →
      ∃ v : FixedBytes n, FixedBytes.fromBytes n input = .ok v ∧ v.encode = input ∧
        FixedBytes.decode n v.encode = .ok v ∧ v.encode.length = n := by
    intro n input h
    refine ⟨⟨input, h⟩, ?_, rfl, round n ⟨input, h⟩⟩
    simp only [FixedBytes.fromBytes, h, dite_true]
  exact ⟨build 48, build 96, round 48, round 96⟩

/-- Witness for claim C7: the 48 one-bytes are accepted as a public key whose
encoding is those bytes. -/
theorem fromBytes_encode_roundtrip_witness :
    (List.replicate 48 (1 : Byte)).length = 48 ∧
    ∃ v : BLSPubkey, FixedBytes.fromBytes 48 (List.replicate 48 (1 : Byte)) = .ok v ∧
      v.encode = List.replicate 48 (1 : Byte) ∧
      FixedBytes.decode 48 v.encode = .ok v ∧ v.encode.length = 48 :=
  ⟨by decide, fromBytes_encode_roundtrip.1 (List.replicate 48 1) (by decide)⟩

/-- Claim C8: for every signer of the scheme and every message for which `Sign`
returns a signature without error, `VerifySignature` with the signer's own
public key accepts that signature over that message. -/
theorem Sign_then_VerifySignature (sch : SignatureScheme) (s : SchemeSigner sch)
    (msg : List Byte) (sig : BLSSignature) (h : s.toBLSSigner.Sign msg = .ok sig) :
    s.toBLSSigner.VerifySignature s.toBLSSigner.PublicKey msg sig = none := by
  have hs : sch.sign s.key msg = .ok sig := h
  show sch.verify s.pubKey msg sig = none
  simp only [SignatureScheme.verify, s.own_key, sch.sign_wellFormed s.key msg sig hs, hs,
    if_true]

/-- Witness for claim C8: the signature of the sample signer over the message
`1, 2` verifies under its public key. -/
theorem Sign_then_VerifySignature_witness :
    sampleSigner.toBLSSigner.Sign [1, 2] = .ok (sampleSignature 7 [1, 2]) ∧
    sampleSigner.toBLSSigner.VerifySignature sampleSigner.toBLSSigner.PublicKey [1, 2]
      (sampleSignature 7 [1, 2]) = none :=
  ⟨rfl, Sign_then_VerifySignature sampleScheme sampleSigner [1, 2] (sampleSignature 7 [1, 2]) rfl⟩

/-- Claim C10: one call of `GetAddressFromPubKey` makes exactly one decoder
call, the first thing it does; when that call fails its wrapped error is
returned and `Address()` is not called, and when it succeeds `Address()` is
called exactly once, on the key object the decoder returned. -/
theorem GetAddressFromPubKey_calls {Key : Type} (c : Comet Key) (pubKey : BLSPubkey)
    (t : Trace Key) :
    ∃ made : Trace Key, (GetAddressFromPubKey c pubKey t).2 = t ++ made ∧
      decoderCalls made = 1 ∧
      made.head? = some (Call.PubKeyFromTypeAndBytes CometBLSType pubKey.slice) ∧
      match c.PubKeyFromTypeAndBytes CometBLSType pubKey.slice with
      | .error e =>
          addressCalls made = 0 ∧
          (GetAddressFromPubKey c pubKey t).1
            = ⟨none, some (Errorf "failed retrieving pubKey from bytes: %w" e)⟩
      | .ok k =>
          made = [Call.PubKeyFromTypeAndBytes CometBLSType pubKey.slice, Call.Address k] ∧
          addressCalls made = 1 ∧
          (GetAddressFromPubKey c pubKey t).1 = ⟨c.Address k, none⟩ := by
  cases h : c.PubKeyFromTypeAndBytes CometBLSType pubKey.slice with
  | error e =>
      refine ⟨[Call.PubKeyFromTypeAndBytes CometBLSType pubKey.slice], ?_, rfl, rfl, rfl, ?_⟩
      · rw [GetAddressFromPubKey_of_error c pubKey t e h]
      · rw [GetAddressFromPubKey_of_error c pubKey t e h, Errorf_retrieving]
  | ok k =>
      refine ⟨[Call.PubKeyFromTypeAndBytes CometBLSType pubKey.slice, Call.Address k],
        ?_, rfl, rfl, rfl, rfl, ?_⟩
      · rw [GetAddressFromPubKey_of_ok c pubKey t k h]
      · rw [GetAddressFromPubKey_of_ok c pubKey t k h]

end Crypto
